import Mathlib

/-!
# Verification of the `msumastro` image-collection indexer

Shallow embedding of `image_collection.py` (class `ImageFileCollection`) and
of `IRAF_image_type` from `triage_fits_files.py`, together with proofs about
the claims of the specification.

Modelling conventions:
* Python strings are lists of characters (`PyStr`); `str.lower`/`str.upper`
  are character-wise `Char.toLower`/`Char.toUpper` (the values involved are
  ASCII FITS keywords and type tags).
* A FITS file is a name together with `Option` header: `none` models a file
  whose header cannot be read (`fits.getheader` raising `IOError`).
* A header is an association list from keyword to value.  Header values are
  a tagged variant (`Value`): string, integer or boolean.  Python `==` on
  values is `pyEq` (numeric comparison identifies `bool` with 0/1 as Python
  does); Python `type(...)` comparison is comparison of `Value.tag`.
* An astropy masked table is modelled column-major.  numpy mask arrays are
  shared mutable arrays, so the table carries a heap `masks : List (List
  Bool)` of mask arrays and every column holds an index (`maskRef`) into that
  heap; `column.mask = ma.nomask` and `column[idx] = ma.masked` write through
  the reference in place, and code that stores `column.mask` in a variable
  stores the reference, not a copy.  `tid` models Python object identity of
  the table (each `_fits_summary` call allocates a fresh table).
* Fallible Python code returns `Except PyErr`; the distinct Python exception
  classes that the claims care about are the constructors of `PyErr`.
-/

/-- Python strings, modelled as lists of characters. -/
abbrev PyStr := List Char

/-- Conversion from a Lean string literal to a `PyStr`. -/
def pystr (s : String) : PyStr := s.data

/-- Python `str.lower()` (character-wise, ASCII). -/
def pyLower (s : PyStr) : PyStr := s.map Char.toLower

/-- A FITS header value: `str`, `int` or `bool` (the dynamic types that
occur in the headers the program reads). -/
inductive Value where
  | str : PyStr → Value
  | int : Int → Value
  | bool : Bool → Value
deriving DecidableEq, Repr

/-- Python `type(v)`, as a small tag. -/
def Value.tag : Value → Nat
  | .str _ => 0
  | .int _ => 1
  | .bool _ => 2

/-- Python `==` on header values: numeric types compare by value (`1 == True`
in Python), strings compare exactly, and string/number comparisons are
`False`. -/
def pyEq : Value → Value → Bool
  | .str a, .str b => a == b
  | .int a, .int b => a == b
  | .bool a, .bool b => a == b
  | .int a, .bool b => a == (if b then (1 : Int) else 0)
  | .bool a, .int b => (if a then (1 : Int) else 0) == b
  | _, _ => false

/-- A FITS file on disk: its name and its header; `header = none` models a
file whose header cannot be read (I/O or parse failure). -/
structure FitsFile where
  name : PyStr
  header : Option (List (String × Value))
deriving DecidableEq, Repr

/-- `keyword in header` / `header[keyword]`. -/
def headerLookup (h : List (String × Value)) (k : String) : Option Value :=
  (h.find? (fun p => p.1 == k)).map Prod.snd

/-- One column of the summary table: its name, its data values, and the
reference (`maskRef`) to its numpy mask array in the table's mask heap. -/
structure MaskedColumn where
  name : String
  data : List Value
  maskRef : Nat
deriving DecidableEq, Repr

/-- The summary table (`astropy.table.Table(masked=True)`).  `masks` is the
heap of numpy mask arrays, indexed by `maskRef`; `tid` models Python object
identity of the table. -/
structure Table where
  cols : List MaskedColumn
  masks : List (List Bool)
  tid : Nat
deriving DecidableEq, Repr

/-- `table[name]`: the first column with the given name, if any (a missing
column is a Python `KeyError`, raised by the caller). -/
def getCol (t : Table) (k : String) : Option MaskedColumn :=
  t.cols.find? (fun c => c.name == k)

/-- The current contents of a column's mask array. -/
def maskOf (t : Table) (col : MaskedColumn) : List Bool :=
  t.masks.getD col.maskRef []

/-- A column as a list of (value, masked) cells. -/
def cellsOf (t : Table) (col : MaskedColumn) : List (Value × Bool) :=
  col.data.zip (maskOf t col)

/-- `len(table)`: the number of rows (length of the first column). -/
def numRows (t : Table) : Nat :=
  match t.cols with
  | [] => 0
  | c :: _ => c.data.length

/-- The state of an `ImageFileCollection` instance: the discovered file list,
the summary table (`_summary_info`, `None` when there are no files), and the
next fresh table identity. -/
structure Collection where
  files : List FitsFile
  summary : Option Table
  nextId : Nat
deriving DecidableEq, Repr

/-- The `keywords` property: column names of the summary, or `[]` when the
summary is `None` or empty (Python truthiness of `self.summary_info`). -/
def keywords (c : Collection) : List String :=
  match c.summary with
  | none => []
  | some t => if numRows t = 0 then [] else t.cols.map (fun col => col.name)

/-! ## `_fits_summary` (image_collection.py lines 195-252) -/

/-- The files whose header can be read, paired with their headers (files
raising `IOError` are logged and skipped, line 219-222). -/
def readableHeaders (files : List FitsFile) : List (PyStr × List (String × Value)) :=
  files.filterMap (fun f => f.header.map (fun h => (f.name, h)))

/-- The placeholder stored for a missing keyword (`dummy_value = -123`,
line 205), together with the mask flag. -/
def dummyCell : Value × Bool := (Value.int (-123), true)

/-- The cell a single readable file contributes to a keyword column
(lines 226-239). -/
def cellFor (h : List (String × Value)) (k : String) : Value × Bool :=
  match headerLookup h k with
  | some v => (v, false)
  | none => dummyCell

/-- The raw cells of a keyword column, one per readable file. -/
def rawCells (files : List FitsFile) (k : String) : List (Value × Bool) :=
  (readableHeaders files).map (fun p => cellFor p.2 k)

/-- The Python types of the values present (unmasked) in a column, in order
of appearance (the `data_type` bookkeeping of lines 230-236). -/
def presentTags (cells : List (Value × Bool)) : List Nat :=
  cells.filterMap (fun p => if p.2 then none else some p.1.tag)

/-- `True` iff every present value of the column has the same type as the
first present value (otherwise line 232 raises `ValueError`). -/
def typeConsistent (cells : List (Value × Bool)) : Bool :=
  match presentTags cells with
  | [] => true
  | t :: ts => ts.all (fun u => u == t)

/-- Python `str(v)`. -/
def pyStrOfValue : Value → PyStr
  | .str s => s
  | .int n => (toString n).data
  | .bool b => if b then pystr "True" else pystr "False"

/-- Lines 244-246: a column whose keyword was present in no file has no
recorded data type, and its (all dummy, all masked) values are stringified. -/
def stringifyIfUntyped (cells : List (Value × Bool)) : List (Value × Bool) :=
  if presentTags cells = [] then
    cells.map (fun p => (Value.str (pyStrOfValue p.1), p.2))
  else cells

/-- The final cells of a keyword column. -/
def buildCells (files : List FitsFile) (k : String) : List (Value × Bool) :=
  stringifyIfUntyped (rawCells files k)

/-- The cells of the mandatory `file` column: one unmasked name per readable
file (lines 223-224). -/
def fileCells (files : List FitsFile) : List (Value × Bool) :=
  (readableHeaders files).map (fun p => (Value.str p.1, false))

/-- `_fits_summary`: `None` when the collection has no files (line 202-203);
`ValueError` on a heterogeneously-typed keyword (line 232-234); otherwise a
fresh masked table whose first column is `file` followed by one column per
requested keyword, each column's mask array freshly allocated (`maskRef` =
column index).  `tid` is the identity of the freshly allocated table. -/
def fits_summary (files : List FitsFile) (keywords : List String) (tid : Nat) :
    Except String (Option Table) :=
  if files.isEmpty then .ok none
  else if keywords.all (fun k => typeConsistent (rawCells files k)) then
    let allCells := fileCells files :: keywords.map (fun k => buildCells files k)
    let names := "file" :: keywords
    .ok (some
      { cols := (List.zip names allCells).enum.map
          (fun p => { name := p.2.1, data := p.2.2.map Prod.fst, maskRef := p.1 }),
        masks := allCells.map (fun cs => cs.map Prod.snd),
        tid := tid })
  else .error "Different data types found for keyword"

/-! ## Python exceptions distinguished by the claims -/

inductive PyErr where
  | keyError : String → PyErr
  | valueError : String → PyErr
  | attributeError : PyErr
  | typeError : PyErr
  | indexError : PyErr
deriving DecidableEq, Repr

/-! ## `_find_keywords_by_values` (lines 254-320) -/

/-- The wildcard filter value `'*'`. -/
def starValue : Value := Value.str (pystr "*")

/-- Lines 285-312: the boolean match vector of one keyword clause against a
column.  `target = none` is Python's `None` (the absent-keyword sentinel);
`'*'` matches any present value; a string target compares case-insensitively
against present cells (`.lower()` on a non-string cell is an
`AttributeError`); any other target compares with Python `==` against
present cells. -/
def haveThisValue (cells : List (Value × Bool)) (target : Option Value) :
    Except PyErr (List Bool) :=
  if target = some starValue then .ok (cells.map (fun p => !p.2))
  else
    match target with
    | some (Value.str s) =>
        cells.mapM (fun p =>
          if p.2 then pure false
          else
            match p.1 with
            | Value.str cv => pure (pyLower cv == pyLower s)
            | _ => .error PyErr.attributeError)
    | some v => .ok (cells.map (fun p => !p.2 && pyEq p.1 v))
    | none => .ok (cells.map (fun p => p.2))

/-- Lines 281-314: conjunction of the per-keyword match vectors, starting
from all-`True`; looking up a keyword that is not a column of `use_info`
raises `KeyError`. -/
def computeMatches (t : Table) (kwd : List (String × Option Value)) :
    Except PyErr (List Bool) :=
  kwd.foldlM
    (fun acc p =>
      match getCol t p.1 with
      | none => .error (PyErr.keyError p.1)
      | some col => do
          let hv ← haveThisValue (cellsOf t col) p.2
          pure (List.zipWith (fun a b => a && b) acc hv))
    (List.replicate (numRows t) true)

/-- Lines 274-279: the table the predicate is evaluated against; the
in-memory summary when ANY queried keyword is already a summary column,
otherwise a freshly built temporary summary over the queried keywords. -/
def useInfoFor (c : Collection) (ks : List String) : Except PyErr (Option Table) :=
  if ks.any (fun k => (keywords c).contains k) then .ok c.summary
  else
    match fits_summary c.files ks c.nextId with
    | .ok t => .ok t
    | .error e => .error (PyErr.valueError e)

/-- Overwriting the contents of the mask array at heap slot `ref` (an
in-place numpy mask write, seen by every alias of that array). -/
def maskUpdate (t : Table) (ref : Nat) (m : List Bool) : Table :=
  { t with masks := t.masks.set ref m }

/-- Lines 319-320: `summary_info['file'].mask = ma.nomask` (fill the file
column's mask array with `False` in place) followed by
`summary_info['file'][~matches] = ma.masked`; the combined effect writes
`¬matches` through the file column's mask reference.  numpy's boolean
indexing requires the index vector to have the column's length. -/
def applyFileMask (c : Collection) (matchVec : List Bool) : Except PyErr Collection :=
  match c.summary with
  | none => .error PyErr.typeError
  | some s =>
    match getCol s "file" with
    | none => .error (PyErr.keyError "file")
    | some fcol =>
      if matchVec.length = fcol.data.length then
        .ok { c with summary := some (maskUpdate s fcol.maskRef (matchVec.map (fun b => !b))) }
      else .error PyErr.indexError

/-- `_find_keywords_by_values`: choose `use_info`, compute the match vector,
then record it as the (transient) mask of the summary's `file` column. -/
def find_keywords_by_values (c : Collection) (kwd : List (String × Option Value)) :
    Except PyErr Collection := do
  let useInfo ← useInfoFor c (kwd.map Prod.fst)
  match useInfo with
  | none => .error PyErr.typeError
  | some t => do
    let matchVec ← computeMatches t kwd
    applyFileMask c matchVec

/-- `summary_info['file'].compressed()`: the values of the unmasked cells of
the file column (file-column values are strings by construction). -/
def compressedNames (cells : List (Value × Bool)) : List PyStr :=
  cells.filterMap (fun p =>
    if p.2 then none
    else match p.1 with
         | Value.str s => some s
         | _ => none)

/-- `files_filtered` (lines 175-193): run the filter, then read the file
column with the mask applied.  Returns the file names together with the
mutated collection state. -/
def files_filtered (c : Collection) (kwd : List (String × Option Value)) :
    Except PyErr (List PyStr × Collection) := do
  let c' ← find_keywords_by_values c kwd
  match c'.summary with
  | none => .error PyErr.typeError
  | some s =>
    match getCol s "file" with
    | none => .error (PyErr.keyError "file")
    | some fcol => pure (compressedNames (cellsOf s fcol), c')

/-! ## `_generator` (lines 350-404) -/

/-- Line 402-404: `self.summary_info[col].mask = current_mask[col]` for each
column.  `current_mask` holds mask REFERENCES (the code's own comment says
the masks "must COPY" but the code stores `self.summary_info[col].mask`,
i.e. the numpy array itself), so the restore copies each mask array's
current contents onto itself. -/
def restoreMasks (t : Table) (saved : List (String × Nat)) : Table :=
  saved.foldl
    (fun acc p =>
      match getCol acc p.1 with
      | some col => { acc with masks := acc.masks.set col.maskRef (acc.masks.getD p.2 []) }
      | none => acc)
    t

/-- The valid selectors of `return_options` (lines 374-376). -/
def validReturnTypes : List String := ["header", "hdu", "data"]

/-- The loop and restore part of `_generator`, after the optional filtering:
compute the matching paths (line 369 via `paths`), crash with `KeyError` on
an unknown selector at the first iteration step, stop early (skipping the
restore) when the consumer abandons the iteration, and run the restore loop
of lines 402-404 on normal exhaustion (also when there is nothing to
iterate). -/
def generatorStep (c1 : Collection) (saved : List (String × Nat))
    (returnType : String) (consumed : Nat) : Except PyErr Collection :=
  match c1.summary with
  | none => .ok c1
  | some t1 =>
    match getCol t1 "file" with
    | none => .error (PyErr.keyError "file")
    | some fcol =>
      let ps := compressedNames (cellsOf t1 fcol)
      if ps.isEmpty then .ok { c1 with summary := some (restoreMasks t1 saved) }
      else if !(validReturnTypes.contains returnType) then
        .error (PyErr.keyError returnType)
      else if consumed < ps.length then .ok c1
      else .ok { c1 with summary := some (restoreMasks t1 saved) }

/-- `_generator`, viewed through the state of the collection.  The consumer
takes `consumed` items and then abandons the generator; Python runs the
code after the last executed `yield` only if the iteration is exhausted
(`consumed ≥` number of matching paths), so the restore loop of lines
402-404 is skipped on early termination.  An unknown `return_type` raises
`KeyError` from the `return_options[return_type]` lookup on the first
iteration step (the `except ValueError` clause of line 381 does not catch
`KeyError`). -/
def generatorRun (c : Collection) (returnType : String)
    (kwd : List (String × Option Value)) (consumed : Nat) :
    Except PyErr Collection :=
  match c.summary with
  | none => .ok c
  | some t0 => do
    let saved := t0.cols.map (fun col => (col.name, col.maskRef))
    let c1 ← if kwd.isEmpty then pure c else find_keywords_by_values c kwd
    generatorStep c1 saved returnType consumed

/-! ## `keywords` setter (lines 146-151) and `__init__` (lines 46-70) -/

/-- The `keywords` property setter: unless the new value is `None`, always
rebuild the summary with `_fits_summary` (the freshly allocated table gets
the next table identity). -/
def keywords_set (c : Collection) (ks : Option (List String)) :
    Except String Collection :=
  match ks with
  | none => .ok c
  | some ks => do
    let s ← fits_summary c.files ks c.nextId
    pure { c with summary := s, nextId := c.nextId + 1 }

/-- `__init__`: `_summary_info` is first set from the `info_file` table when
one is readable (lines 55-62), and then line 70 unconditionally overwrites
it with `self._fits_summary(keywords=keywords)`. -/
def initCollection (files : List FitsFile) (keywords : List String)
    (infoTable : Option Table) : Except String Collection :=
  let _summaryFromInfoFile := infoTable
  match fits_summary files keywords 0 with
  | .ok s => .ok { files := files, summary := s, nextId := 1 }
  | .error e => .error e

/-! ## `IRAF_image_type` (triage_fits_files.py lines 53-61) -/

/-- Python `str.split()` with no arguments: split on runs of whitespace,
discarding empty pieces.  Structural recursion on a fuel bounded by the
string length. -/
def pySplitGo : Nat → PyStr → List PyStr
  | 0, _ => []
  | n + 1, s =>
    match s.dropWhile Char.isWhitespace with
    | [] => []
    | c :: cs =>
      ((c :: cs).takeWhile (fun a => !a.isWhitespace)) ::
        pySplitGo n ((c :: cs).dropWhile (fun a => !a.isWhitespace))

/-- Python `s.split()`. -/
def pySplit (s : PyStr) : List PyStr := pySplitGo (s.length + 1) s

/-- `IRAF_image_type`: `image_type.split()[0].upper()`.  `none` models the
`IndexError` raised by `[0]` on an all-whitespace string. -/
def IRAF_image_type (image_type : PyStr) : Option PyStr :=
  (pySplit image_type).head?.map (fun t => t.map Char.toUpper)

/-! ## General list and character lemmas -/

theorem list_set_getD {α : Type} (l : List α) (i : Nat) (d : α) :
    l.set i (l.getD i d) = l := by
  induction l generalizing i with
  | nil => simp
  | cons a t ih =>
    cases i with
    | zero => simp [List.set, List.getD]
    | succ n => rw [List.getD_cons_succ, List.set_cons_succ, ih]

theorem list_getD_set_ne {α : Type} (l : List α) {i j : Nat} (v d : α) (h : i ≠ j) :
    (l.set i v).getD j d = l.getD j d := by
  simp [List.getD_eq_getElem?_getD, List.getElem?_set_ne h]

theorem list_getD_set_self {α : Type} (l : List α) {i : Nat} (v d : α) (h : i < l.length) :
    (l.set i v).getD i d = v := by
  simp [List.getD_eq_getElem?_getD, List.getElem?_set_self h]

theorem zipWith_and_replicate (l : List Bool) (n : Nat) (h : l.length = n) :
    List.zipWith (fun a b => a && b) (List.replicate n true) l = l := by
  induction l generalizing n with
  | nil => subst h; simp
  | cons a t ih =>
    subst h
    simp only [List.length_cons, List.replicate_succ, List.zipWith_cons_cons, Bool.true_and]
    rw [ih t.length rfl]

theorem char_toNat_ofNat (m : Nat) (h : m < 55296) : (Char.ofNat m).toNat = m := by
  have hv : m.isValidChar := Or.inl h
  simp [Char.ofNat, hv, Char.ofNatAux, Char.toNat, UInt32.toNat, BitVec.toNat_ofNatLt]

theorem char_toUpper_of_not_lower (c : Char) (h : ¬(97 ≤ c.toNat ∧ c.toNat ≤ 122)) :
    c.toUpper = c := by
  unfold Char.toUpper
  simp only [ge_iff_le]
  exact if_neg h

theorem char_toUpper_of_lower (c : Char) (h : 97 ≤ c.toNat ∧ c.toNat ≤ 122) :
    c.toUpper = Char.ofNat (c.toNat - 32) := by
  unfold Char.toUpper
  simp only [ge_iff_le]
  exact if_pos h

theorem char_toUpper_idem (c : Char) : c.toUpper.toUpper = c.toUpper := by
  by_cases h : 97 ≤ c.toNat ∧ c.toNat ≤ 122
  · rw [char_toUpper_of_lower c h]
    have ht := char_toNat_ofNat (c.toNat - 32) (by omega)
    exact char_toUpper_of_not_lower _ (by omega)
  · rw [char_toUpper_of_not_lower c h, char_toUpper_of_not_lower c h]

theorem char_toUpper_not_ws (c : Char) (h : c.isWhitespace = false) :
    c.toUpper.isWhitespace = false := by
  by_cases hr : 97 ≤ c.toNat ∧ c.toNat ≤ 122
  · rw [char_toUpper_of_lower c hr]
    have ht := char_toNat_ofNat (c.toNat - 32) (by omega)
    have hsp : (' ' : Char).toNat = 32 := rfl
    have htab : ('\t' : Char).toNat = 9 := rfl
    have hcr : ('\x0d' : Char).toNat = 13 := rfl
    have hnl : ('\n' : Char).toNat = 10 := rfl
    simp only [Char.isWhitespace, Bool.or_eq_false_iff, decide_eq_false_iff_not]
    refine ⟨⟨⟨?_, ?_⟩, ?_⟩, ?_⟩ <;> (intro he; rw [he] at ht; omega)
  · rw [char_toUpper_of_not_lower c hr]; exact h

theorem char_toLower_of_not_upper (c : Char) (h : ¬(65 ≤ c.toNat ∧ c.toNat ≤ 90)) :
    c.toLower = c := by
  unfold Char.toLower
  simp only [ge_iff_le]
  exact if_neg h

theorem char_toLower_of_upper (c : Char) (h : 65 ≤ c.toNat ∧ c.toNat ≤ 90) :
    c.toLower = Char.ofNat (c.toNat + 32) := by
  unfold Char.toLower
  simp only [ge_iff_le]
  exact if_pos h

theorem char_toLower_eq_star (c : Char) (h : c.toLower = '*') : c = '*' := by
  by_cases hr : 65 ≤ c.toNat ∧ c.toNat ≤ 90
  · exfalso
    rw [char_toLower_of_upper c hr] at h
    have ht := char_toNat_ofNat (c.toNat + 32) (by omega)
    have hstar : ('*' : Char).toNat = 42 := rfl
    rw [h] at ht
    omega
  · rwa [char_toLower_of_not_upper c hr] at h

theorem pyLower_eq_star (v : PyStr) (h : pyLower v = pystr "*") : v = pystr "*" := by
  match v with
  | [] => simp [pyLower, pystr] at h
  | [c] =>
    simp only [pyLower, List.map_cons, List.map_nil] at h
    have : c.toLower = '*' := by
      have := congrArg List.head? h
      simpa [pystr] using this
    rw [char_toLower_eq_star c this]; rfl
  | c1 :: c2 :: t =>
    exfalso
    have := congrArg List.length h
    simp [pyLower, pystr] at this

theorem dropWhile_head_false {α : Type} (p : α → Bool) (l : List α) (c : α) (cs : List α)
    (h : l.dropWhile p = c :: cs) : p c = false := by
  induction l with
  | nil => simp at h
  | cons a t ih =>
    rw [List.dropWhile_cons] at h
    by_cases hpa : p a = true
    · rw [if_pos hpa] at h
      exact ih h
    · rw [if_neg hpa] at h
      cases h
      exact Bool.eq_false_iff.mpr hpa

theorem dropWhile_ne_nil {α : Type} (p : α → Bool) (l : List α)
    (h : ∃ a ∈ l, p a = false) : l.dropWhile p ≠ [] := by
  induction l with
  | nil => simp at h
  | cons a t ih =>
    rw [List.dropWhile_cons]
    split
    · apply ih
      obtain ⟨x, hx, hpx⟩ := h
      rcases List.mem_cons.mp hx with rfl | hxt
      · simp_all
      · exact ⟨x, hxt, hpx⟩
    · simp

/-! ## Claim C10: `IRAF_image_type` -/

theorem pySplit_head_eq (s : PyStr) :
    (pySplit s).head? =
      match s.dropWhile Char.isWhitespace with
      | [] => none
      | c :: cs => some ((c :: cs).takeWhile (fun a => !a.isWhitespace)) := by
  unfold pySplit
  cases h : s.dropWhile Char.isWhitespace with
  | nil => simp [pySplitGo, h]
  | cons c cs => simp [pySplitGo, h]

/-- C10: on any string with at least one non-whitespace character,
`IRAF_image_type` returns the first whitespace-separated token converted to
upper case, and it is idempotent: applied to its own output it returns that
output unchanged. -/
theorem IRAF_image_type_first_token_and_idempotent (s : PyStr)
    (h : ∃ a ∈ s, a.isWhitespace = false) :
    IRAF_image_type s =
      some (((s.dropWhile Char.isWhitespace).takeWhile
              (fun a => !a.isWhitespace)).map Char.toUpper) ∧
    ∀ r, IRAF_image_type s = some r → IRAF_image_type r = some r := by
  have hne : s.dropWhile Char.isWhitespace ≠ [] := dropWhile_ne_nil _ s h
  obtain ⟨c, cs, hd⟩ : ∃ c cs, s.dropWhile Char.isWhitespace = c :: cs := by
    cases hcase : s.dropWhile Char.isWhitespace with
    | nil => exact absurd hcase hne
    | cons c cs => exact ⟨c, cs, rfl⟩
  have hc : c.isWhitespace = false := dropWhile_head_false _ s c cs hd
  have hfirst : IRAF_image_type s =
      some (((s.dropWhile Char.isWhitespace).takeWhile
              (fun a => !a.isWhitespace)).map Char.toUpper) := by
    unfold IRAF_image_type
    rw [pySplit_head_eq, hd]
    rfl
  refine ⟨hfirst, ?_⟩
  intro r hr
  rw [hfirst] at hr
  have hrdef : r = ((c :: cs).takeWhile (fun a => !a.isWhitespace)).map Char.toUpper := by
    rw [hd] at hr
    exact (Option.some.injEq _ _ ▸ hr).symm
  -- every character of r is non-whitespace
  have hrws : ∀ a ∈ r, a.isWhitespace = false := by
    intro a ha
    rw [hrdef] at ha
    obtain ⟨b, hb, rfl⟩ := List.mem_map.mp ha
    have := List.mem_takeWhile_imp hb
    exact char_toUpper_not_ws b (by simpa using this)
  -- r is non-empty: the head of the token is c
  have hrne : r ≠ [] := by
    rw [hrdef]
    rw [List.takeWhile_cons, if_pos (by simp [hc])]
    simp
  obtain ⟨r0, rs, hrcons⟩ : ∃ r0 rs, r = r0 :: rs := by
    cases hcase : r with
    | nil => exact absurd hcase hrne
    | cons r0 rs => exact ⟨r0, rs, rfl⟩
  -- upper-casing r is the identity
  have hupper : r.map Char.toUpper = r := by
    rw [hrdef, List.map_map]
    apply List.map_congr_left
    intro a _
    exact char_toUpper_idem a
  -- splitting r yields r itself as the single token
  have hdrop : r.dropWhile Char.isWhitespace = r := by
    rw [List.dropWhile_eq_self_iff]
    intro hl
    have := hrws (r.get ⟨0, hl⟩) (r.get_mem 0 hl)
    simpa [List.get_eq_getElem] using this
  have htake : r.takeWhile (fun a => !a.isWhitespace) = r := by
    rw [List.takeWhile_eq_self_iff]
    intro x hx
    simp [hrws x hx]
  unfold IRAF_image_type
  rw [pySplit_head_eq, hdrop]
  subst hrcons
  simp only [htake, Option.map_some]
  simp [hupper]

/-- C10 witness: `'Bias Frame'` normalizes to its first token upper-cased and
the normalization is idempotent. -/
theorem IRAF_image_type_first_token_and_idempotent_witness :
    IRAF_image_type (pystr "Bias Frame") =
      some ((((pystr "Bias Frame").dropWhile Char.isWhitespace).takeWhile
              (fun a => !a.isWhitespace)).map Char.toUpper) ∧
    ∀ r, IRAF_image_type (pystr "Bias Frame") = some r → IRAF_image_type r = some r :=
  IRAF_image_type_first_token_and_idempotent (pystr "Bias Frame") (by decide)

/-! ## A concrete collection (the two-file scenario of the specification:
one LIGHT frame with a FILTER keyword, one BIAS frame without) -/

def fLight : FitsFile :=
  { name := pystr "light1.fit",
    header := some [("imagetyp", Value.str (pystr "LIGHT")),
                    ("filter", Value.str (pystr "R"))] }

def fBias : FitsFile :=
  { name := pystr "bias1.fit",
    header := some [("imagetyp", Value.str (pystr "BIAS"))] }

def exFiles : List FitsFile := [fLight, fBias]

/-- The summary table `_fits_summary` builds for `exFiles` with keywords
`imagetyp, filter`: the BIAS row's `filter` cell is masked. -/
def tEx : Table :=
  { cols := [
      { name := "file",
        data := [Value.str (pystr "light1.fit"), Value.str (pystr "bias1.fit")],
        maskRef := 0 },
      { name := "imagetyp",
        data := [Value.str (pystr "LIGHT"), Value.str (pystr "BIAS")],
        maskRef := 1 },
      { name := "filter",
        data := [Value.str (pystr "R"), Value.int (-123)],
        maskRef := 2 }],
    masks := [[false, false], [false, false], [false, true]],
    tid := 0 }

def cEx : Collection := { files := exFiles, summary := some tEx, nextId := 1 }

/-- Sanity: `cEx` is exactly the collection the constructor builds from the
two example files. -/
theorem cEx_is_built : initCollection exFiles ["imagetyp", "filter"] none = .ok cEx := rfl

/-- The per-column mask state of the collection's summary (the persistent
view the specification's frame conditions talk about). -/
def maskState (c : Collection) : Option (List (List Bool)) := c.summary.map Table.masks

/-! ## Claim C1 (counterexample part): a fully consumed filtered generator
iteration does NOT restore the mask state -/

def kwdLight : List (String × Option Value) :=
  [("imagetyp", some (Value.str (pystr "light")))]

/-- `cEx` after the filter `imagetyp='light'` has been applied: the BIAS row
of the `file` column is masked. -/
def cExFiltered : Collection :=
  { cEx with summary := some { tEx with masks := [[false, true], [false, false], [false, true]] } }

/-- C1 counterexample: iterating `headers(imagetyp='light')` to exhaustion
(`consumed = 99` ≥ the one matching row) leaves the collection with the
filter's mask, not the original mask state: the saved "copy" of the masks
aliases the live mask arrays, so the end-of-loop restore is a no-op. -/
theorem generator_filtered_iteration_changes_mask :
    generatorRun cEx "header" kwdLight 99 = .ok cExFiltered ∧
    maskState cExFiltered ≠ maskState cEx := by
  constructor
  · rfl
  · decide

/-! ## Claim C2 (counterexample part): `files_filtered` leaves the filter
mask in place, and is not repeatable for a predicate on the `file` column -/

def kwdFileNone : List (String × Option Value) := [("file", none)]

/-- `cEx` after `files_filtered(file=None)`: every `file` cell is masked. -/
def cExAllMasked : Collection :=
  { cEx with summary := some { tEx with masks := [[true, true], [false, false], [false, true]] } }

/-- C2 counterexample: `files_filtered(file=None)` returns `[]` and leaves
the whole `file` column masked (the transient mask is NOT restored to
empty); running the same query again therefore returns ALL files. -/
theorem files_filtered_leaves_mask_and_differs_on_repeat :
    files_filtered cEx kwdFileNone = .ok ([], cExAllMasked) ∧
    files_filtered cExAllMasked kwdFileNone =
      .ok ([pystr "light1.fit", pystr "bias1.fit"], cEx) ∧
    ([] : List PyStr) ≠ [pystr "light1.fit", pystr "bias1.fit"] ∧
    maskState cExAllMasked ≠ maskState cEx := by
  refine ⟨rfl, rfl, ?_, ?_⟩ <;> decide

/-! ## Claim C3: a predicate mixing an in-summary keyword with a keyword
that is not a summary column raises `KeyError` instead of rebuilding -/

/-- C3: querying `imagetyp='*'` (a summary column) together with `monkeys`
(not a column) hits the in-memory branch of `_find_keywords_by_values`
(the queried set intersects the summary columns), and the lookup
`use_info['monkeys']` raises `KeyError`; the summary is never extended. -/
theorem mixed_keyword_filter_raises_key_error :
    files_filtered cEx [("imagetyp", some starValue), ("monkeys", none)] =
      .error (PyErr.keyError "monkeys") := rfl

/-! ## Claim C4: setting `keywords` to a subset still rebuilds the summary -/

/-- The table the `keywords` setter builds for the subset request
`['imagetyp']`: a freshly allocated table (`tid = 1`), not the old one. -/
def tExSub : Table :=
  { cols := [
      { name := "file",
        data := [Value.str (pystr "light1.fit"), Value.str (pystr "bias1.fit")],
        maskRef := 0 },
      { name := "imagetyp",
        data := [Value.str (pystr "LIGHT"), Value.str (pystr "BIAS")],
        maskRef := 1 }],
    masks := [[false, false], [false, false]],
    tid := 1 }

def cExSub : Collection := { files := exFiles, summary := some tExSub, nextId := 2 }

/-- C4: setting the keywords to `['imagetyp']`, a subset of the current
keywords of `cEx`, goes through `_fits_summary` and installs a freshly
built table: the old table object is discarded, there is no in-place
trimming. -/
theorem keywords_subset_still_rebuilds :
    (∀ k ∈ ["imagetyp"], k ∈ keywords cEx) ∧
    keywords_set cEx (some ["imagetyp"]) = .ok cExSub ∧
    cExSub.summary ≠ cEx.summary := by
  refine ⟨by decide, rfl, by decide⟩

/-! ## Claim C5: the table read from `info_file` is discarded by `__init__` -/

/-- C5: constructing a collection from an `info_file` table with no FITS
files to scan yields a `None` summary — line 70 overwrites the loaded table
with `_fits_summary(...)`, which returns `None` for an empty file list — so
none of the keyword columns or values of the saved table survive. -/
theorem init_from_info_file_discards_table (kws : List String) (infoTable : Option Table) :
    initCollection [] kws infoTable = .ok { files := [], summary := none, nextId := 1 } := rfl

/-! ## Claim C9: an unknown generator selector raises `KeyError`, not a
`ValueError` naming the selector -/

/-- C9: requesting the unknown selector `'headers'` from the generator
makes the `return_options[return_type]` lookup raise `KeyError` on the
first iteration step; the `except ValueError` clause (which would re-raise
a `ValueError` naming the selector) never fires, so no `ValueError` of any
message is raised. -/
theorem unknown_generator_selector_key_error :
    generatorRun cEx "headers" [] 0 = .error (PyErr.keyError "headers") ∧
    ∀ msg, generatorRun cEx "headers" [] 0 ≠ .error (PyErr.valueError msg) := by
  constructor
  · rfl
  · intro msg h
    rw [show generatorRun cEx "headers" [] 0 = .error (PyErr.keyError "headers") from rfl] at h
    simp at h

/-! ## Evaluation lemmas for the filter machinery -/

theorem haveThisValue_star (cells : List (Value × Bool)) :
    haveThisValue cells (some starValue) = .ok (cells.map (fun p => !p.2)) := by
  simp [haveThisValue]

theorem haveThisValue_none (cells : List (Value × Bool)) :
    haveThisValue cells none = .ok (cells.map (fun p => p.2)) := by
  simp [haveThisValue, starValue]

theorem haveThisValue_nonstr (cells : List (Value × Bool)) (v : Value) (hv : v.tag ≠ 0) :
    haveThisValue cells (some v) = .ok (cells.map (fun p => !p.2 && pyEq p.1 v)) := by
  cases v with
  | str s => simp [Value.tag] at hv
  | int n => simp [haveThisValue, starValue, pystr]
  | bool b => simp [haveThisValue, starValue, pystr]

theorem haveThisValue_str (cells : List (Value × Bool)) (s : PyStr) (hs : s ≠ pystr "*") :
    haveThisValue cells (some (Value.str s)) =
      cells.mapM (fun p =>
        if p.2 then pure false
        else match p.1 with
             | Value.str cv => pure (pyLower cv == pyLower s)
             | _ => .error PyErr.attributeError) := by
  have : ¬(some (Value.str s) = some starValue) := by
    simp [starValue]
    exact hs
  simp only [haveThisValue, if_neg this]

theorem computeMatches_single (t : Table) (K : String) (target : Option Value)
    (col : MaskedColumn) (hcol : getCol t K = some col)
    (hv : List Bool) (hhv : haveThisValue (cellsOf t col) target = .ok hv)
    (hlen : hv.length = numRows t) :
    computeMatches t [(K, target)] = .ok hv := by
  simp only [computeMatches, List.foldlM_cons, List.foldlM_nil, hcol, hhv]
  simp [zipWith_and_replicate hv (numRows t) hlen]

theorem find_keywords_by_values_single (c : Collection) (t : Table) (K : String)
    (target : Option Value) (col fcol : MaskedColumn)
    (hsum : c.summary = some t) (hK : K ∈ keywords c)
    (hcol : getCol t K = some col) (hfcol : getCol t "file" = some fcol)
    (hv : List Bool) (hhv : haveThisValue (cellsOf t col) target = .ok hv)
    (hlen : hv.length = numRows t) (hflen : hv.length = fcol.data.length) :
    find_keywords_by_values c [(K, target)] =
      .ok { c with summary := some (maskUpdate t fcol.maskRef (hv.map (fun b => !b))) } := by
  have huse : useInfoFor c ([(K, target)].map Prod.fst) = .ok c.summary := by
    simp only [useInfoFor, List.map_cons, List.map_nil, List.any_cons, List.any_nil,
      Bool.or_false]
    rw [if_pos (List.elem_eq_true_of_mem hK)]
  unfold find_keywords_by_values
  rw [huse, hsum]
  simp only [bind, Except.bind]
  rw [computeMatches_single t K target col hcol hv hhv hlen]
  simp only [bind, Except.bind, applyFileMask, hsum, hfcol]
  rw [if_pos hflen]

theorem files_filtered_single (c : Collection) (t : Table) (K : String)
    (target : Option Value) (col fcol : MaskedColumn)
    (hsum : c.summary = some t) (hK : K ∈ keywords c)
    (hcol : getCol t K = some col) (hfcol : getCol t "file" = some fcol)
    (hv : List Bool) (hhv : haveThisValue (cellsOf t col) target = .ok hv)
    (hlen : hv.length = numRows t) (hflen : hv.length = fcol.data.length)
    (href : fcol.maskRef < t.masks.length) :
    files_filtered c [(K, target)] =
      .ok (compressedNames (fcol.data.zip (hv.map (fun b => !b))),
           { c with summary := some (maskUpdate t fcol.maskRef (hv.map (fun b => !b))) }) := by
  unfold files_filtered
  rw [find_keywords_by_values_single c t K target col fcol hsum hK hcol hfcol hv hhv hlen hflen]
  simp only [bind, Except.bind]
  have hgc : getCol (maskUpdate t fcol.maskRef (hv.map (fun b => !b))) "file" =
      some fcol := hfcol
  rw [hgc]
  have hcells : cellsOf (maskUpdate t fcol.maskRef (hv.map (fun b => !b))) fcol =
      fcol.data.zip (hv.map (fun b => !b)) := by
    unfold cellsOf maskOf maskUpdate
    rw [list_getD_set_self _ _ _ href]
  simp only [hcells]
  rfl

/-! ## Zip/filter bookkeeping lemmas -/

theorem compressedNames_zip (ns : List PyStr) (ms : List Bool) :
    compressedNames ((ns.map Value.str).zip ms) =
      ((ns.zip ms).filter (fun q => !q.2)).map Prod.fst := by
  induction ns generalizing ms with
  | nil => simp [compressedNames]
  | cons n nt ih =>
    cases ms with
    | nil => simp [compressedNames]
    | cons m mt =>
      cases m with
      | false =>
        simp only [List.map_cons, List.zip_cons_cons, compressedNames, List.filterMap_cons]
        simp only [compressedNames] at ih
        simp [ih mt]
      | true =>
        simp only [List.map_cons, List.zip_cons_cons, compressedNames, List.filterMap_cons]
        simp only [compressedNames] at ih
        simp [ih mt]

theorem filter_zip_pred {β : Type} (ns : List PyStr) (cells : List β) (pred : β → Bool) :
    ((ns.zip (cells.map (fun b => !(pred b)))).filter (fun q => !q.2)).map Prod.fst
    = ((ns.zip cells).filter (fun q => pred q.2)).map Prod.fst := by
  induction ns generalizing cells with
  | nil => simp
  | cons n nt ih =>
    cases cells with
    | nil => simp
    | cons cl ct =>
      simp only [List.map_cons, List.zip_cons_cons, List.filter_cons]
      cases hp : pred cl <;> simp [hp, ih ct]

theorem zip_filter_perm (ns : List PyStr) (ms : List Bool) (hlen : ns.length ≤ ms.length) :
    (((ns.zip ms).filter (fun q => !q.2)).map Prod.fst ++
     ((ns.zip ms).filter (fun q => q.2)).map Prod.fst).Perm ns := by
  have hperm := List.filter_append_perm (fun q : PyStr × Bool => !q.2) (ns.zip ms)
  have hcongr : (ns.zip ms).filter (fun x : PyStr × Bool => !(!x.2)) =
      (ns.zip ms).filter (fun q : PyStr × Bool => q.2) :=
    List.filter_congr (by intro x _; cases hx : x.2 <;> simp)
  rw [hcongr] at hperm
  have hmap := hperm.map Prod.fst
  rw [List.map_append] at hmap
  rwa [List.map_fst_zip ns ms hlen] at hmap

theorem zip_filter_disjoint (ns : List PyStr) (ms : List Bool)
    (hnd : ns.Nodup) (hlen : ns.length ≤ ms.length) :
    ∀ x ∈ ((ns.zip ms).filter (fun q => !q.2)).map Prod.fst,
      x ∉ ((ns.zip ms).filter (fun q => q.2)).map Prod.fst := by
  intro x hxF hxT
  obtain ⟨p1, hp1, hx1⟩ := List.mem_map.mp hxF
  obtain ⟨p2, hp2, hx2⟩ := List.mem_map.mp hxT
  have h1 := List.mem_filter.mp hp1
  have h2 := List.mem_filter.mp hp2
  have hnodup : ((ns.zip ms).map Prod.fst).Nodup := by
    rw [List.map_fst_zip ns ms hlen]; exact hnd
  have hinj := List.inj_on_of_nodup_map hnodup h1.1 h2.1 (hx1.trans hx2.symm)
  rw [hinj] at h1
  have hfalse := h1.2
  have htrue := h2.2
  rw [htrue] at hfalse
  simp at hfalse

/-! ## Claim C6: wildcard and absent-sentinel filters partition the files -/

/-- C6: for a keyword `K` that is a summary column, filtering with `'*'`
returns exactly the file names of the rows where `K` is present (unmasked),
filtering with `None` returns exactly the file names of the rows where `K`
is masked, the two result lists are disjoint, and together they are a
permutation of all file names in the summary. -/
theorem star_none_filters_partition
    (c : Collection) (t : Table) (K : String)
    (colK fcol : MaskedColumn) (fileNames : List PyStr) (maskK : List Bool)
    (hsum : c.summary = some t)
    (hK : K ∈ keywords c)
    (hcolK : getCol t K = some colK)
    (hfcol : getCol t "file" = some fcol)
    (hnames : fcol.data = fileNames.map Value.str)
    (hmaskK : maskOf t colK = maskK)
    (hlenK : colK.data.length = fileNames.length)
    (hlenM : maskK.length = fileNames.length)
    (hrows : numRows t = fileNames.length)
    (href : fcol.maskRef < t.masks.length)
    (hnd : fileNames.Nodup) :
    (∃ cStar, files_filtered c [(K, some starValue)] =
        .ok (((fileNames.zip maskK).filter (fun q => !q.2)).map Prod.fst, cStar)) ∧
    (∃ cNone, files_filtered c [(K, none)] =
        .ok (((fileNames.zip maskK).filter (fun q => q.2)).map Prod.fst, cNone)) ∧
    (∀ x ∈ ((fileNames.zip maskK).filter (fun q => !q.2)).map Prod.fst,
        x ∉ ((fileNames.zip maskK).filter (fun q => q.2)).map Prod.fst) ∧
    (((fileNames.zip maskK).filter (fun q => !q.2)).map Prod.fst ++
     ((fileNames.zip maskK).filter (fun q => q.2)).map Prod.fst).Perm fileNames := by
  have hcells : cellsOf t colK = colK.data.zip maskK := by
    unfold cellsOf; rw [hmaskK]
  have hcellsLen : (cellsOf t colK).length = fileNames.length := by
    rw [hcells, List.length_zip, hlenK, hlenM, Nat.min_self]
  have hfdataLen : fcol.data.length = fileNames.length := by
    rw [hnames, List.length_map]
  have hsnd : (cellsOf t colK).map (fun p => p.2) = maskK := by
    rw [hcells, List.map_snd_zip]
    rw [hlenK, hlenM]
  -- the '*' query
  have hstar : ∃ cStar, files_filtered c [(K, some starValue)] =
      .ok (((fileNames.zip maskK).filter (fun q => !q.2)).map Prod.fst, cStar) := by
    have hv := haveThisValue_star (cellsOf t colK)
    have hvlen : ((cellsOf t colK).map (fun p => !p.2)).length = numRows t := by
      rw [List.length_map, hcellsLen, hrows]
    have hvflen : ((cellsOf t colK).map (fun p => !p.2)).length = fcol.data.length := by
      rw [List.length_map, hcellsLen, hfdataLen]
    -- the stored mask is exactly maskK, and the result reads off the unmasked rows
    have hstored : ((cellsOf t colK).map (fun p => !p.2)).map (fun b => !b) = maskK := by
      rw [List.map_map]
      have hcomp : ((fun b => !b) ∘ fun p : Value × Bool => !p.2) =
          fun p : Value × Bool => p.2 := by
        funext p; simp
      rw [hcomp, hsnd]
    refine ⟨{ c with summary := some (maskUpdate t fcol.maskRef
        (((cellsOf t colK).map (fun p => !p.2)).map (fun b => !b))) }, ?_⟩
    rw [files_filtered_single c t K (some starValue) colK fcol hsum hK hcolK hfcol _
        hv hvlen hvflen href]
    rw [hstored, hnames, compressedNames_zip]
  -- the None query
  have hnone : ∃ cNone, files_filtered c [(K, none)] =
      .ok (((fileNames.zip maskK).filter (fun q => q.2)).map Prod.fst, cNone) := by
    have hv := haveThisValue_none (cellsOf t colK)
    have hvlen : ((cellsOf t colK).map (fun p => p.2)).length = numRows t := by
      rw [List.length_map, hcellsLen, hrows]
    have hvflen : ((cellsOf t colK).map (fun p => p.2)).length = fcol.data.length := by
      rw [List.length_map, hcellsLen, hfdataLen]
    have hstored : ((cellsOf t colK).map (fun p => p.2)).map (fun b => !b) =
        maskK.map (fun b => !(id b)) := by
      rw [hsnd]; rfl
    refine ⟨{ c with summary := some (maskUpdate t fcol.maskRef
        (((cellsOf t colK).map (fun p => p.2)).map (fun b => !b))) }, ?_⟩
    rw [files_filtered_single c t K none colK fcol hsum hK hcolK hfcol _
        hv hvlen hvflen href]
    rw [hstored, hnames, compressedNames_zip, filter_zip_pred fileNames maskK id]
    have hid : (fileNames.zip maskK).filter (fun q => id q.2) =
        (fileNames.zip maskK).filter (fun q => q.2) := rfl
    rw [hid]
  refine ⟨hstar, hnone, ?_, ?_⟩
  · exact zip_filter_disjoint fileNames maskK hnd (le_of_eq hlenM.symm)
  · exact zip_filter_perm fileNames maskK (le_of_eq hlenM.symm)

def colFileEx : MaskedColumn :=
  { name := "file",
    data := [Value.str (pystr "light1.fit"), Value.str (pystr "bias1.fit")],
    maskRef := 0 }

def colFilterEx : MaskedColumn :=
  { name := "filter",
    data := [Value.str (pystr "R"), Value.int (-123)],
    maskRef := 2 }

/-- C6 witness: in the two-file scenario, `filter='*'` selects the LIGHT
frame, `filter=None` selects the BIAS frame, and together they partition
the collection. -/
theorem star_none_filters_partition_witness :
    (∃ cStar, files_filtered cEx [("filter", some starValue)] =
        .ok ((([pystr "light1.fit", pystr "bias1.fit"].zip [false, true]).filter
               (fun q => !q.2)).map Prod.fst, cStar)) ∧
    (∃ cNone, files_filtered cEx [("filter", none)] =
        .ok ((([pystr "light1.fit", pystr "bias1.fit"].zip [false, true]).filter
               (fun q => q.2)).map Prod.fst, cNone)) ∧
    (∀ x ∈ (([pystr "light1.fit", pystr "bias1.fit"].zip [false, true]).filter
              (fun q => !q.2)).map Prod.fst,
        x ∉ (([pystr "light1.fit", pystr "bias1.fit"].zip [false, true]).filter
              (fun q => q.2)).map Prod.fst) ∧
    ((([pystr "light1.fit", pystr "bias1.fit"].zip [false, true]).filter
        (fun q => !q.2)).map Prod.fst ++
     (([pystr "light1.fit", pystr "bias1.fit"].zip [false, true]).filter
        (fun q => q.2)).map Prod.fst).Perm [pystr "light1.fit", pystr "bias1.fit"] :=
  star_none_filters_partition cEx tEx "filter" colFilterEx colFileEx
    [pystr "light1.fit", pystr "bias1.fit"] [false, true]
    rfl (by decide) rfl rfl rfl rfl rfl rfl rfl (by decide) (by decide)

/-! ## Claim C7: case-insensitive string matching; exact equality otherwise -/

theorem bool_eq_of_iff {a b : Bool} (h : a = true ↔ b = true) : a = b := by
  cases a <;> cases b <;> simp_all

theorem pyEq_eq_beq_of_tag (a b : Value) (h : a.tag = b.tag) : pyEq a b = (a == b) := by
  cases a <;> cases b <;>
    first
      | (apply bool_eq_of_iff; simp [pyEq, beq_iff_eq]; done)
      | (simp only [Value.tag] at h; exact absurd h (by decide))

theorem haveThisValue_str_congr (cells : List (Value × Bool)) (v1 v2 : PyStr)
    (hL : pyLower v1 = pyLower v2) :
    haveThisValue cells (some (Value.str v1)) = haveThisValue cells (some (Value.str v2)) := by
  have hstarlow : pyLower (pystr "*") = pystr "*" := by decide
  by_cases hstar : v1 = pystr "*"
  · have h2 : v2 = pystr "*" := by
      apply pyLower_eq_star
      rw [← hL, hstar, hstarlow]
    rw [hstar, h2]
  · have h2 : v2 ≠ pystr "*" := by
      intro hv2
      apply hstar
      apply pyLower_eq_star
      rw [hL, hv2, hstarlow]
    rw [haveThisValue_str cells v1 hstar, haveThisValue_str cells v2 h2]
    simp only [hL]

theorem files_filtered_str_congr (c : Collection) (K : String) (v1 v2 : PyStr)
    (hL : pyLower v1 = pyLower v2) :
    files_filtered c [(K, some (Value.str v1))] =
      files_filtered c [(K, some (Value.str v2))] := by
  have hfind : find_keywords_by_values c [(K, some (Value.str v1))] =
      find_keywords_by_values c [(K, some (Value.str v2))] := by
    unfold find_keywords_by_values useInfoFor computeMatches
    simp only [List.map_cons, List.map_nil, List.foldlM_cons, List.foldlM_nil,
      haveThisValue_str_congr _ v1 v2 hL]
  unfold files_filtered
  rw [hfind]

/-- C7: string-valued filter matching is case-insensitive — two string
targets with the same lower-casing produce identical `files_filtered`
outcomes (results, state changes, and errors alike) — while a non-string
target selects exactly the rows whose cell is present and equal to the
target (over a column whose present cells have the target's type, Python
`==` is exact equality). -/
theorem filter_value_comparison_semantics :
    (∀ (c : Collection) (K : String) (v1 v2 : PyStr), pyLower v1 = pyLower v2 →
      files_filtered c [(K, some (Value.str v1))] =
        files_filtered c [(K, some (Value.str v2))]) ∧
    (∀ (c : Collection) (t : Table) (K : String) (v : Value)
       (colK fcol : MaskedColumn) (fileNames : List PyStr) (maskK : List Bool),
       c.summary = some t → K ∈ keywords c →
       getCol t K = some colK → getCol t "file" = some fcol →
       fcol.data = fileNames.map Value.str → maskOf t colK = maskK →
       colK.data.length = fileNames.length → maskK.length = fileNames.length →
       numRows t = fileNames.length → fcol.maskRef < t.masks.length →
       v.tag ≠ 0 →
       (∀ p ∈ cellsOf t colK, p.2 = false → p.1.tag = v.tag) →
       ∃ cExact, files_filtered c [(K, some v)] =
         .ok (((fileNames.zip (cellsOf t colK)).filter
                (fun q => !q.2.2 && q.2.1 == v)).map Prod.fst, cExact)) := by
  constructor
  · exact files_filtered_str_congr
  · intro c t K v colK fcol fileNames maskK hsum hK hcolK hfcol hnames hmaskK hlenK hlenM
      hrows href htag hcellsTag
    have hv := haveThisValue_nonstr (cellsOf t colK) v htag
    have hcellsLen : (cellsOf t colK).length = fileNames.length := by
      unfold cellsOf
      rw [hmaskK, List.length_zip, hlenK, hlenM, Nat.min_self]
    have hvlen : ((cellsOf t colK).map (fun p => !p.2 && pyEq p.1 v)).length = numRows t := by
      rw [List.length_map, hcellsLen, hrows]
    have hvflen : ((cellsOf t colK).map (fun p => !p.2 && pyEq p.1 v)).length =
        fcol.data.length := by
      rw [List.length_map, hcellsLen, hnames, List.length_map]
    refine ⟨{ c with summary := some (maskUpdate t fcol.maskRef
        (((cellsOf t colK).map (fun p => !p.2 && pyEq p.1 v)).map (fun b => !b))) }, ?_⟩
    rw [files_filtered_single c t K (some v) colK fcol hsum hK hcolK hfcol _
        hv hvlen hvflen href]
    have hstored : ((cellsOf t colK).map (fun p => !p.2 && pyEq p.1 v)).map (fun b => !b) =
        (cellsOf t colK).map
          (fun p => !((fun q : Value × Bool => !q.2 && pyEq q.1 v) p)) := by
      rw [List.map_map]; rfl
    rw [hstored, hnames, compressedNames_zip,
      filter_zip_pred fileNames (cellsOf t colK) (fun q => !q.2 && pyEq q.1 v)]
    have hfc : (fileNames.zip (cellsOf t colK)).filter
          (fun q => !q.2.2 && pyEq q.2.1 v) =
        (fileNames.zip (cellsOf t colK)).filter (fun q => !q.2.2 && (q.2.1 == v)) := by
      apply List.filter_congr
      intro q hq
      have hcellmem : q.2 ∈ cellsOf t colK := (List.of_mem_zip hq).2
      cases hm : q.2.2 with
      | false =>
        have htg := hcellsTag q.2 hcellmem hm
        rw [pyEq_eq_beq_of_tag _ _ htg]
      | true => simp [hm]
    rw [hfc]

/-! A collection with an integer-valued column, for the exact-equality part
of C7. -/

def fD1 : FitsFile := { name := pystr "d1.fit", header := some [("exptime", Value.int 10)] }

def fD2 : FitsFile := { name := pystr "d2.fit", header := some [("exptime", Value.int 20)] }

def colFileNum : MaskedColumn :=
  { name := "file",
    data := [Value.str (pystr "d1.fit"), Value.str (pystr "d2.fit")],
    maskRef := 0 }

def colExptimeNum : MaskedColumn :=
  { name := "exptime", data := [Value.int 10, Value.int 20], maskRef := 1 }

def tNum : Table :=
  { cols := [colFileNum, colExptimeNum],
    masks := [[false, false], [false, false]],
    tid := 0 }

def cNum : Collection := { files := [fD1, fD2], summary := some tNum, nextId := 1 }

/-- Sanity: `cNum` is the collection the constructor builds from the two
integer-exposure files. -/
theorem cNum_is_built : initCollection [fD1, fD2] ["exptime"] none = .ok cNum := rfl

/-- C7 witness: `imagetyp='LIGHT'` and `imagetyp='light'` give the same
outcome on the example collection, and the integer filter `exptime=10`
selects exactly the unmasked rows whose cell equals `10`. -/
theorem filter_value_comparison_semantics_witness :
    (files_filtered cEx [("imagetyp", some (Value.str (pystr "LIGHT")))] =
      files_filtered cEx [("imagetyp", some (Value.str (pystr "light")))]) ∧
    ∃ cExact, files_filtered cNum [("exptime", some (Value.int 10))] =
      .ok ((([pystr "d1.fit", pystr "d2.fit"].zip (cellsOf tNum colExptimeNum)).filter
             (fun q => !q.2.2 && q.2.1 == Value.int 10)).map Prod.fst, cExact) :=
  ⟨filter_value_comparison_semantics.1 cEx "imagetyp" (pystr "LIGHT") (pystr "light")
      (by decide),
   filter_value_comparison_semantics.2 cNum tNum "exptime" (Value.int 10)
      colExptimeNum colFileNum [pystr "d1.fit", pystr "d2.fit"] [false, false]
      rfl (by decide) rfl rfl rfl rfl rfl rfl rfl (by decide) (by decide) (by decide)⟩

/-! ## Claim C8: summary rows are exactly the successfully parsed files -/

theorem readableHeaders_length (files : List FitsFile) :
    (readableHeaders files).length = (files.filter (fun f => f.header.isSome)).length := by
  induction files with
  | nil => rfl
  | cons f fs ih =>
    unfold readableHeaders at ih ⊢
    cases hf : f.header with
    | none => simp [List.filterMap_cons, hf, List.filter_cons, ih]
    | some hh => simp [List.filterMap_cons, hf, List.filter_cons, ih]

/-- C8: whenever `_fits_summary` succeeds with a table, the `file` column
holds exactly the names of the files whose header could be read, in
discovery order, and the number of rows equals the number of successfully
parsed files — a file whose header cannot be read appears in no row. -/
theorem fits_summary_rows_are_parsed_files
    (files : List FitsFile) (kws : List String) (tid : Nat) (t : Table)
    (h : fits_summary files kws tid = .ok (some t)) :
    ∃ fcol, getCol t "file" = some fcol ∧
      fcol.data = (readableHeaders files).map (fun p => Value.str p.1) ∧
      numRows t = (files.filter (fun f => f.header.isSome)).length := by
  unfold fits_summary at h
  split at h
  · simp at h
  · split at h
    · simp only [Except.ok.injEq, Option.some.injEq] at h
      subst h
      refine ⟨{ name := "file", data := (fileCells files).map Prod.fst, maskRef := 0 },
        ?_, ?_, ?_⟩
      · unfold getCol
        simp only [List.zip_cons_cons, List.enum_cons, List.map_cons]
        exact List.find?_cons_of_pos _ (by simp)
      · show (fileCells files).map Prod.fst = _
        unfold fileCells
        rw [List.map_map]
        rfl
      · unfold numRows
        simp only [List.zip_cons_cons, List.enum_cons, List.map_cons]
        show ((fileCells files).map Prod.fst).length = _
        rw [List.length_map]
        unfold fileCells
        rw [List.length_map]
        exact readableHeaders_length files
    · simp at h

def fBad : FitsFile := { name := pystr "bad.fit", header := none }

/-- The summary built from two readable files and one unreadable file. -/
def tBadEx : Table :=
  { cols := [
      { name := "file",
        data := [Value.str (pystr "light1.fit"), Value.str (pystr "bias1.fit")],
        maskRef := 0 },
      { name := "imagetyp",
        data := [Value.str (pystr "LIGHT"), Value.str (pystr "BIAS")],
        maskRef := 1 }],
    masks := [[false, false], [false, false]],
    tid := 0 }

/-- C8 witness: with one unreadable file among three, the summary has
exactly two rows — the unreadable file appears in no row. -/
theorem fits_summary_rows_are_parsed_files_witness :
    ∃ fcol, getCol tBadEx "file" = some fcol ∧
      fcol.data = (readableHeaders [fLight, fBias, fBad]).map (fun p => Value.str p.1) ∧
      numRows tBadEx = ([fLight, fBias, fBad].filter (fun f => f.header.isSome)).length :=
  fits_summary_rows_are_parsed_files [fLight, fBias, fBad] ["imagetyp"] 0 tBadEx rfl

/-! ## Claim C1 (amended part): the generator's final state is exactly the
post-filter state — the saved masks are aliases, so the restore writes each
mask array onto itself, and early termination skips it anyway -/

theorem find?_name_nodup (cols : List MaskedColumn) (col : MaskedColumn)
    (hnd : (cols.map MaskedColumn.name).Nodup) (hmem : col ∈ cols) :
    cols.find? (fun c => c.name == col.name) = some col := by
  induction cols with
  | nil => simp at hmem
  | cons a rest ih =>
    rw [List.map_cons] at hnd
    have hnd' := List.nodup_cons.mp hnd
    rcases List.mem_cons.mp hmem with rfl | hmem'
    · exact List.find?_cons_of_pos _ (by simp)
    · have hne : a.name ≠ col.name := by
        intro he
        apply hnd'.1
        rw [he]
        exact List.mem_map.mpr ⟨col, hmem', rfl⟩
      rw [List.find?_cons_of_neg _ (by simp [hne])]
      exact ih hnd'.2 hmem'

theorem foldl_fixed {α β : Type} (f : β → α → β) (b : β) (l : List α)
    (h : ∀ a ∈ l, f b a = b) : l.foldl f b = b := by
  induction l with
  | nil => rfl
  | cons x xs ih =>
    rw [List.foldl_cons, h x (List.mem_cons_self x xs)]
    exact ih (fun a ha => h a (List.mem_cons_of_mem x ha))

/-- The restore loop of `_generator` (lines 402-404) is a no-op: for every
column it writes the current contents of that column's own mask array back
onto itself, because `current_mask` stored references into the live table,
not copies. -/
theorem restoreMasks_id (t : Table)
    (hnd : (t.cols.map MaskedColumn.name).Nodup) :
    restoreMasks t (t.cols.map (fun col => (col.name, col.maskRef))) = t := by
  unfold restoreMasks
  apply foldl_fixed
  intro p hp
  obtain ⟨col, hmem, rfl⟩ := List.mem_map.mp hp
  have hg : getCol t col.name = some col := find?_name_nodup t.cols col hnd hmem
  show (match getCol t col.name with
        | some c' => { t with masks := t.masks.set c'.maskRef (t.masks.getD col.maskRef []) }
        | none => t) = t
  rw [hg]
  show { t with masks := t.masks.set col.maskRef (t.masks.getD col.maskRef []) } = t
  rw [list_set_getD]

theorem applyFileMask_ok_shape (c : Collection) (t : Table) (mv : List Bool)
    (c' : Collection) (hsum : c.summary = some t) (h : applyFileMask c mv = .ok c') :
    ∃ fcol, getCol t "file" = some fcol ∧ mv.length = fcol.data.length ∧
      c' = { c with summary := some (maskUpdate t fcol.maskRef (mv.map (fun b => !b))) } := by
  unfold applyFileMask at h
  rw [hsum] at h
  have h2 : (match getCol t "file" with
             | none => Except.error (PyErr.keyError "file")
             | some fcol =>
               if mv.length = fcol.data.length then
                 Except.ok
                   { c with summary := some (maskUpdate t fcol.maskRef (mv.map (fun b => !b))) }
               else Except.error PyErr.indexError) = Except.ok c' := h
  clear h
  cases hf : getCol t "file" with
  | none =>
    rw [hf] at h2
    exact absurd h2 (by simp)
  | some fcol =>
    rw [hf] at h2
    have h3 : (if mv.length = fcol.data.length then
                 Except.ok
                   { c with summary := some (maskUpdate t fcol.maskRef (mv.map (fun b => !b))) }
               else Except.error PyErr.indexError) = Except.ok c' := h2
    by_cases hlen : mv.length = fcol.data.length
    · rw [if_pos hlen] at h3
      injection h3 with h4
      exact ⟨fcol, rfl, hlen, h4.symm⟩
    · rw [if_neg hlen] at h3
      exact absurd h3 (by simp)

theorem find_ok_shape (c : Collection) (t : Table) (kwd : List (String × Option Value))
    (c' : Collection) (hsum : c.summary = some t)
    (h : find_keywords_by_values c kwd = .ok c') :
    ∃ (mv : List Bool) (fcol : MaskedColumn),
      getCol t "file" = some fcol ∧ mv.length = fcol.data.length ∧
      c' = { c with summary := some (maskUpdate t fcol.maskRef (mv.map (fun b => !b))) } := by
  unfold find_keywords_by_values at h
  simp only [bind, Except.bind] at h
  split at h
  · exact absurd h (by simp)
  · split at h
    · exact absurd h (by simp)
    · split at h
      · exact absurd h (by simp)
      · obtain ⟨fcol, hf, hlen, hc⟩ := applyFileMask_ok_shape c t _ c' hsum h
        exact ⟨_, fcol, hf, hlen, hc⟩


theorem generatorStep_ok (c1 : Collection) (t1 : Table) (saved : List (String × Nat))
    (rt : String) (consumed : Nat) (c' : Collection)
    (hsum1 : c1.summary = some t1)
    (hrest : restoreMasks t1 saved = t1)
    (h : generatorStep c1 saved rt consumed = .ok c') :
    c' = c1 := by
  unfold generatorStep at h
  rw [hsum1] at h
  have h2 : (match getCol t1 "file" with
             | none => Except.error (PyErr.keyError "file")
             | some fcol =>
               let ps := compressedNames (cellsOf t1 fcol)
               if ps.isEmpty then Except.ok { c1 with summary := some (restoreMasks t1 saved) }
               else if !(validReturnTypes.contains rt) then Except.error (PyErr.keyError rt)
               else if consumed < ps.length then Except.ok c1
               else Except.ok { c1 with summary := some (restoreMasks t1 saved) }) =
      Except.ok c' := h
  clear h
  rw [hrest, ← hsum1] at h2
  have heta : ({ c1 with summary := c1.summary } : Collection) = c1 := rfl
  rw [heta] at h2
  cases hg : getCol t1 "file" with
  | none =>
    rw [hg] at h2
    exact absurd h2 (by simp)
  | some fcol =>
    rw [hg] at h2
    have h3 : (if (compressedNames (cellsOf t1 fcol)).isEmpty then Except.ok c1
               else if !(validReturnTypes.contains rt) then Except.error (PyErr.keyError rt)
               else if consumed < (compressedNames (cellsOf t1 fcol)).length then Except.ok c1
               else Except.ok c1) = Except.ok c' := h2
    clear h2
    split at h3
    · injection h3 with h4
      exact h4.symm
    · split at h3
      · exact absurd h3 (by simp)
      · split at h3
        · injection h3 with h4
          exact h4.symm
        · injection h3 with h4
          exact h4.symm

/-- C1 (amended): a filtered generator iteration leaves the collection in
exactly the state the filter produced, regardless of whether the consumer
exhausts the iteration or abandons it after any number of items: the
end-of-loop restore writes each saved (aliased, not copied) mask reference
onto itself, and on early termination it does not run at all — the
summary's persistent mask state is NOT restored. -/
theorem generator_run_is_filter_state
    (c : Collection) (t : Table) (rt : String) (kwd : List (String × Option Value))
    (consumed : Nat) (c1 c' : Collection)
    (hsum : c.summary = some t)
    (hnd : (t.cols.map MaskedColumn.name).Nodup)
    (hk : kwd ≠ [])
    (hfind : find_keywords_by_values c kwd = .ok c1)
    (hrun : generatorRun c rt kwd consumed = .ok c') :
    c' = c1 := by
  obtain ⟨mv, fcol, hf, hlen, hc1⟩ := find_ok_shape c t kwd c1 hsum hfind
  have hc1sum : c1.summary = some (maskUpdate t fcol.maskRef (mv.map (fun b => !b))) := by
    rw [hc1]
  obtain ⟨a, l, rfl⟩ : ∃ a l, kwd = a :: l := by
    cases kwd with
    | nil => exact absurd rfl hk
    | cons a l => exact ⟨a, l, rfl⟩
  unfold generatorRun at hrun
  rw [hsum] at hrun
  have hrun2 : (find_keywords_by_values c (a :: l) >>=
      fun c1' => generatorStep c1' (t.cols.map (fun col => (col.name, col.maskRef)))
        rt consumed) = Except.ok c' := hrun
  clear hrun
  rw [hfind] at hrun2
  have hrun3 : generatorStep c1 (t.cols.map (fun col => (col.name, col.maskRef)))
      rt consumed = Except.ok c' := hrun2
  clear hrun2
  have hcols : (maskUpdate t fcol.maskRef (mv.map (fun b => !b))).cols = t.cols := rfl
  have hrest : restoreMasks (maskUpdate t fcol.maskRef (mv.map (fun b => !b)))
      (t.cols.map (fun col => (col.name, col.maskRef))) =
      maskUpdate t fcol.maskRef (mv.map (fun b => !b)) :=
    restoreMasks_id (maskUpdate t fcol.maskRef (mv.map (fun b => !b))) hnd
  exact generatorStep_ok c1 (maskUpdate t fcol.maskRef (mv.map (fun b => !b)))
    (t.cols.map (fun col => (col.name, col.maskRef))) rt consumed c' hc1sum hrest hrun3

/-! ## Claim C2 (amended part): repeating a query that does not filter on
the `file` column gives the same result and the same final state -/

theorem foldlM_congr_fn {α β : Type} (f g : β → α → Except PyErr β) (l : List α) (init : β)
    (h : ∀ b a, a ∈ l → f b a = g b a) :
    l.foldlM f init = l.foldlM g init := by
  induction l generalizing init with
  | nil => rfl
  | cons x xs ih =>
    rw [List.foldlM_cons, List.foldlM_cons, h init x (List.mem_cons_self x xs)]
    exact bind_congr (fun b => ih b (fun b' a ha => h b' a (List.mem_cons_of_mem x ha)))

/-- Overwriting the file column's mask array does not change the outcome of
predicate evaluation, as long as no queried keyword is `file` itself (the
match vectors are read from the other columns' mask arrays, which are
distinct arrays in a well-formed table). -/
theorem computeMatches_maskUpdate (t : Table) (fcol : MaskedColumn) (X : List Bool)
    (kwd : List (String × Option Value))
    (hf : getCol t "file" = some fcol)
    (hndr : (t.cols.map MaskedColumn.maskRef).Nodup)
    (hkeys : ∀ p ∈ kwd, p.1 ≠ "file") :
    computeMatches (maskUpdate t fcol.maskRef X) kwd = computeMatches t kwd := by
  unfold computeMatches
  have hrows : numRows (maskUpdate t fcol.maskRef X) = numRows t := rfl
  rw [hrows]
  apply foldlM_congr_fn
  intro b p hp
  have hgc : getCol (maskUpdate t fcol.maskRef X) p.1 = getCol t p.1 := rfl
  rw [hgc]
  cases hc : getCol t p.1 with
  | none => rfl
  | some col =>
    have hcol_mem : col ∈ t.cols := List.mem_of_find?_eq_some hc
    have hcol_name : col.name = p.1 := by simpa using List.find?_some hc
    have hfcol_mem : fcol ∈ t.cols := List.mem_of_find?_eq_some hf
    have hfcol_name : fcol.name = "file" := by simpa using List.find?_some hf
    have hne : col ≠ fcol := by
      intro he
      apply hkeys p hp
      rw [← hcol_name, he, hfcol_name]
    have href : fcol.maskRef ≠ col.maskRef := by
      intro he
      exact hne (List.inj_on_of_nodup_map hndr hcol_mem hfcol_mem he.symm)
    have hcells : cellsOf (maskUpdate t fcol.maskRef X) col = cellsOf t col := by
      unfold cellsOf maskOf maskUpdate
      rw [list_getD_set_ne _ _ _ href]
    show (haveThisValue (cellsOf (maskUpdate t fcol.maskRef X) col) p.2 >>=
        fun hv => pure (List.zipWith (fun a b => a && b) b hv)) =
      (haveThisValue (cellsOf t col) p.2 >>=
        fun hv => pure (List.zipWith (fun a b => a && b) b hv))
    rw [hcells]

theorem keywords_maskUpdate (c : Collection) (t : Table) (r : Nat) (X : List Bool)
    (hsum : c.summary = some t) :
    keywords { c with summary := some (maskUpdate t r X) } = keywords c := by
  unfold keywords
  rw [hsum]
  rfl

theorem find_ok_full (c : Collection) (t : Table) (kwd : List (String × Option Value))
    (c' : Collection) (hsum : c.summary = some t)
    (h : find_keywords_by_values c kwd = .ok c') :
    ∃ (u : Table) (mv : List Bool) (fcol : MaskedColumn),
      useInfoFor c (kwd.map Prod.fst) = .ok (some u) ∧
      computeMatches u kwd = .ok mv ∧
      getCol t "file" = some fcol ∧ mv.length = fcol.data.length ∧
      c' = { c with summary := some (maskUpdate t fcol.maskRef (mv.map (fun b => !b))) } := by
  unfold find_keywords_by_values at h
  simp only [bind, Except.bind] at h
  split at h
  · exact absurd h (by simp)
  · rename_i uo huse
    split at h
    · exact absurd h (by simp)
    · rename_i u
      split at h
      · exact absurd h (by simp)
      · rename_i mv hm
        obtain ⟨fcol, hf, hlen, hc⟩ := applyFileMask_ok_shape c t mv c' hsum h
        exact ⟨u, mv, fcol, huse, hm, hf, hlen, hc⟩

theorem find_of_components (c : Collection) (kwd : List (String × Option Value))
    (u : Table) (mv : List Bool) (c' : Collection)
    (hu : useInfoFor c (kwd.map Prod.fst) = .ok (some u))
    (hm : computeMatches u kwd = .ok mv)
    (happ : applyFileMask c mv = .ok c') :
    find_keywords_by_values c kwd = .ok c' := by
  unfold find_keywords_by_values
  rw [hu]
  show (computeMatches u kwd >>= fun mvv => applyFileMask c mvv) = Except.ok c'
  rw [hm]
  show applyFileMask c mv = Except.ok c'
  exact happ

theorem maskUpdate_again (t : Table) (r : Nat) (X : List Bool) :
    maskUpdate (maskUpdate t r X) r X = maskUpdate t r X := by
  unfold maskUpdate
  simp [List.set_set]

theorem applyFileMask_set_again (c : Collection) (t : Table) (fcol : MaskedColumn)
    (mv : List Bool)
    (hf : getCol t "file" = some fcol)
    (hlen : mv.length = fcol.data.length) :
    applyFileMask
        { c with summary := some (maskUpdate t fcol.maskRef (mv.map (fun b => !b))) } mv =
      .ok { c with summary := some (maskUpdate t fcol.maskRef (mv.map (fun b => !b))) } := by
  unfold applyFileMask
  have hg : getCol (maskUpdate t fcol.maskRef (mv.map (fun b => !b))) "file" = some fcol := hf
  show (match getCol (maskUpdate t fcol.maskRef (mv.map (fun b => !b))) "file" with
        | none => Except.error (PyErr.keyError "file")
        | some fcol' =>
          if mv.length = fcol'.data.length then
            Except.ok
              { c with summary := some (maskUpdate
                  (maskUpdate t fcol.maskRef (mv.map (fun b => !b)))
                  fcol'.maskRef (mv.map (fun b => !b))) }
          else Except.error PyErr.indexError) =
      Except.ok { c with summary := some (maskUpdate t fcol.maskRef (mv.map (fun b => !b))) }
  rw [hg]
  show (if mv.length = fcol.data.length then
          Except.ok
            { c with summary := some (maskUpdate
                (maskUpdate t fcol.maskRef (mv.map (fun b => !b)))
                fcol.maskRef (mv.map (fun b => !b))) }
        else Except.error PyErr.indexError) =
      Except.ok { c with summary := some (maskUpdate t fcol.maskRef (mv.map (fun b => !b))) }
  rw [if_pos hlen, maskUpdate_again]

theorem files_filtered_ok_destruct (c : Collection) (kwd : List (String × Option Value))
    (r : List PyStr) (c' : Collection)
    (h : files_filtered c kwd = .ok (r, c')) :
    find_keywords_by_values c kwd = .ok c' ∧
    ∃ s fcol, c'.summary = some s ∧ getCol s "file" = some fcol ∧
      r = compressedNames (cellsOf s fcol) := by
  unfold files_filtered at h
  simp only [bind, Except.bind] at h
  split at h
  · exact absurd h (by simp)
  · rename_i c0 hfind
    split at h
    · exact absurd h (by simp)
    · rename_i s hs
      split at h
      · exact absurd h (by simp)
      · rename_i fcol hg
        simp only [pure, Except.pure] at h
        injection h with h2
        have hr : compressedNames (cellsOf s fcol) = r := congrArg Prod.fst h2
        have hc : c0 = c' := congrArg Prod.snd h2
        subst hc
        exact ⟨hfind, s, fcol, hs, hg, hr.symm⟩

/-- C2 (amended): for any predicate that does not filter on the `file`
column itself, running `files_filtered` twice in a row gives the same file
list both times, and the second run leaves the collection exactly as the
first left it (the first run's transient mask, which is NOT restored to
empty, is simply written again by the second run). -/
theorem files_filtered_repeatable
    (c : Collection) (t : Table) (kwd : List (String × Option Value))
    (r1 : List PyStr) (c1 : Collection)
    (hsum : c.summary = some t)
    (hndr : (t.cols.map MaskedColumn.maskRef).Nodup)
    (hkeys : ∀ p ∈ kwd, p.1 ≠ "file")
    (h1 : files_filtered c kwd = .ok (r1, c1)) :
    files_filtered c1 kwd = .ok (r1, c1) := by
  obtain ⟨hfind, s, fcol', hs, hg, hr⟩ := files_filtered_ok_destruct c kwd r1 c1 h1
  obtain ⟨u, mv, fcol, hu, hm, hf, hlen, hc1⟩ := find_ok_full c t kwd c1 hsum hfind
  subst hc1
  set mu : Table := maskUpdate t fcol.maskRef (mv.map (fun b => !b)) with hmudef
  have hs2 : s = mu := by
    injection hs with h2
    exact h2.symm
  subst hs2
  have hgf : getCol mu "file" = some fcol := hf
  have hfcol' : fcol' = fcol := by
    rw [hgf] at hg
    injection hg with h2
    exact h2.symm
  rw [hfcol'] at hr
  clear hg
  have hkw : keywords { c with summary := some mu } = keywords c :=
    keywords_maskUpdate c t _ _ hsum
  -- the second run reaches the same use-info table contents and matches
  have hsecond : ∃ u2,
      useInfoFor { c with summary := some mu } (kwd.map Prod.fst) = .ok (some u2) ∧
      computeMatches u2 kwd = .ok mv := by
    unfold useInfoFor at hu ⊢
    rw [hkw]
    by_cases hb : ((kwd.map Prod.fst).any (fun k => (keywords c).contains k)) = true
    · -- in-memory branch both times
      rw [if_pos hb] at hu ⊢
      rw [hsum] at hu
      have hut : u = t := by
        injection hu with h2
        injection h2 with h3
        exact h3.symm
      rw [hut] at hm
      refine ⟨mu, ?_, ?_⟩
      · rfl
      · rw [hmudef, computeMatches_maskUpdate t fcol _ kwd hf hndr hkeys]
        exact hm
    · -- rebuild branch both times: same files and same allocation counter
      rw [Bool.not_eq_true] at hb
      rw [hb] at hu ⊢
      simp only [Bool.false_eq_true, if_false] at hu ⊢
      exact ⟨u, hu, hm⟩
  obtain ⟨u2, hu2, hm2⟩ := hsecond
  have happ2 : applyFileMask { c with summary := some mu } mv =
      .ok { c with summary := some mu } := by
    rw [hmudef]
    exact applyFileMask_set_again c t fcol mv hf hlen
  have hfind2 : find_keywords_by_values { c with summary := some mu } kwd =
      .ok { c with summary := some mu } :=
    find_of_components _ kwd u2 mv _ hu2 hm2 happ2
  unfold files_filtered
  rw [hfind2]
  simp only [bind, Except.bind, hgf, hr, pure, Except.pure]

/-- C1 witness: abandoning the filtered header iteration after 0 items
leaves `cEx` in exactly the filtered state `cExFiltered`. -/
theorem generator_run_is_filter_state_witness :
    generatorRun cEx "header" kwdLight 0 = .ok cExFiltered ∧ cExFiltered = cExFiltered :=
  ⟨rfl, generator_run_is_filter_state cEx tEx "header" kwdLight 0 cExFiltered cExFiltered
    rfl (by decide) (by decide) rfl rfl⟩

/-- C2 witness: repeating `imagetyp='light'` returns the same single file
and the same final state both times. -/
theorem files_filtered_repeatable_witness :
    files_filtered cEx kwdLight = .ok ([pystr "light1.fit"], cExFiltered) ∧
    files_filtered cExFiltered kwdLight = .ok ([pystr "light1.fit"], cExFiltered) :=
  ⟨rfl, files_filtered_repeatable cEx tEx kwdLight [pystr "light1.fit"] cExFiltered
    rfl (by decide) (by decide) rfl⟩
